import Mathlib

/-!
Verification of the heksa record-rendering engine (`pkg/reader/reader.go`).

The Go source is shallowly embedded below.  Pure formatting helpers become
Lean functions on `Nat` / `Fin 256`; the `strings.Builder` writes become a
token list (`Tok`), distinguishing visible text writes from ANSI
color-marker writes exactly where the source writes palette / break color
strings; the stateful `Reader.Read` becomes explicit state passing over a
`Reader` and a `Source` record.  Go's `int64` offsets are nonnegative in
every reachable state and are modelled as `Nat`; the `uint64` field
`ReadBytes` is modelled as a `Nat` reduced `% 2 ^ 64` on update.
-/

namespace Heksa

/-- Go `fmt` digit characters: `0`-`9` then lowercase `a`-`f`. -/
def digitChar (n : Nat) : Char :=
  if n < 10 then Char.ofNat (48 + n) else Char.ofNat (87 + n)

/-- Digit accumulator loop: peels the least significant digit while fuel
lasts.  `fuel = n + 1` always suffices since `n / base < n` for `base > 1`. -/
def natDigitsCore (base : Nat) : Nat → Nat → List Char → List Char
  | 0, n, acc => digitChar n :: acc
  | fuel + 1, n, acc =>
    if n < base then digitChar n :: acc
    else natDigitsCore base fuel (n / base) (digitChar (n % base) :: acc)

/-- Digits of `n` in base `base` (most significant first), as Go's
`strconv.FormatUint` produces for the `%x` / `%d` / `%o` / `%b` verbs:
`0` renders as `"0"`. -/
def natDigits (base : Nat) (n : Nat) : List Char :=
  natDigitsCore base n n []

/-- Go zero padding: the `0` flag with width `w` left-pads a numeric body
with `'0'` up to width `w` (no truncation). -/
def goPad0 (w : Nat) (s : String) : String :=
  String.mk (List.replicate (w - s.length) '0') ++ s

/-- `fmt.Sprintf("%x", n)` for a nonnegative integer. -/
def goSprintfX (n : Nat) : String :=
  String.mk (natDigits 16 n)

/-- `fmt.Sprintf("%0*", width, n)` for base `base`: zero-padded digits. -/
def goSprintf0 (base w : Nat) (n : Nat) : String :=
  goPad0 w (String.mk (natDigits base n))

/-- The number of hexadecimal digits needed to represent `n`
(one digit for `n = 0`), as the spec phrases the derived offset width. -/
def hexDigitsNeeded (n : Nat) : Nat :=
  Nat.log 16 n + 1

/-! ## Offset formatters -/

/-- The `OffsetFormatter` variants handled by `reader.go` (`none` is
represented by leaving the formatter out of the active list). -/
inductive OffsetFormatter
  | OffsetHex
  | OffsetDec
  | OffsetOct
  | OffsetPercent
deriving DecidableEq

/-- Width derivation of `New` (reader.go lines 81-90): hex, dec and oct all
use `len(fmt.Sprintf("%x", filesize))`; percent uses the fixed width 8. -/
def offsetFormatterWidth (fileSize : Nat) : OffsetFormatter → Nat
  | .OffsetHex => (goSprintfX fileSize).length
  | .OffsetDec => (goSprintfX fileSize).length
  | .OffsetOct => (goSprintfX fileSize).length
  | .OffsetPercent => 8

/-! ### Go float64 model for the percent offset

`formatOffset` computes `(float64(offset) * 100.0) / float64(r.fileSize)`.
Only the value classes are modelled: finite values are idealised as exact
rationals (the claims only exercise the division-by-zero classes, where
IEEE 754 — and hence Go — is exact: `0/0 = NaN`, `x/0 = ±Inf`). -/

inductive GoFloat
  | finite (q : ℚ)
  | nan
  | posInf
  | negInf

/-- IEEE 754 division for the value classes that can arise here. -/
def GoFloat.div : GoFloat → GoFloat → GoFloat
  | .finite x, .finite y =>
    if y = 0 then
      (if x = 0 then .nan else if 0 < x then .posInf else .negInf)
    else .finite (x / y)
  | _, _ => .nan

/-- Go `fmt.Sprintf("%07.3f", v)`: three decimals, zero-padded to width 7.
The zero flag is ignored for `NaN` and `±Inf`, which are right-aligned with
spaces and print as `NaN` / `+Inf` / `-Inf`.  Decimal rounding of finite
values is idealised as rounding of the exact rational. -/
def goFormatF73 : GoFloat → String
  | .nan => "    NaN"
  | .posInf => "   +Inf"
  | .negInf => "   -Inf"
  | .finite q =>
    let m : Int := round (q * 1000)
    let a : Nat := m.natAbs
    let digits := String.mk (natDigits 10 (a / 1000)) ++ "." ++
      goPad0 3 (String.mk (natDigits 10 (a % 1000)))
    if m < 0 then "-" ++ goPad0 6 digits else goPad0 7 digits

/-- `Reader.formatOffset` (reader.go lines 114-122), using the printf
patterns derived in `New`: `%0*x` / `%0*d` / `%0*o` at the derived width,
and `%07.3f%%` for percent.  There is no guard on `fileSize = 0` in the
percent branch: the division is performed unconditionally. -/
def formatOffset (fileSize : Nat) (f : OffsetFormatter) (offset : Nat) : String :=
  match f with
  | .OffsetPercent =>
    goFormatF73 (GoFloat.div (.finite ((offset : ℚ) * 100)) (.finite (fileSize : ℚ))) ++ "%"
  | .OffsetHex => goSprintf0 16 (offsetFormatterWidth fileSize .OffsetHex) offset
  | .OffsetDec => goSprintf0 10 (offsetFormatterWidth fileSize .OffsetDec) offset
  | .OffsetOct => goSprintf0 8 (offsetFormatterWidth fileSize .OffsetOct) offset

/-! ## Byte formatters and the token-level output model -/

/-- The `ByteFormatter` variants of the repository. -/
inductive ByteFormatter
  | ViewHex
  | ViewDec
  | ViewOct
  | ViewBit
  | ViewASCII
  | ViewHexWithASCII
  | ViewDecWithASCII
deriving DecidableEq

/-- One `strings.Builder` write.  Writes of ANSI color strings (palette
entries and the break colors) are tagged `color`; every other write is
visible text. -/
inductive Tok
  | text (s : String)
  | color (s : String)
deriving DecidableEq

/-- The underlying string of a write; the final output line is the
concatenation of all writes in order. -/
def Tok.str : Tok → String
  | .text s => s
  | .color s => s

def Tok.isColor : Tok → Bool
  | .text _ => false
  | .color _ => true

/-- Length contributed to the visible (non-escape) text. -/
def Tok.visLen : Tok → Nat
  | .text s => s.length
  | .color _ => 0

def renderToks (ts : List Tok) : String :=
  String.join (ts.map Tok.str)

/-- Visible width of a run of writes: color markers are zero-width. -/
def visibleWidth (ts : List Tok) : Nat :=
  (ts.map Tok.visLen).sum

/-- The precomputed color strings of the `colors` struct: `palette` is the
`calcpalette` of `New` (`SetForeground` + the per-byte color), the break
fields are the remaining precomputed escape strings. -/
structure Colors where
  palette : Fin 256 → String
  splitterBreak : String
  offsetBreak : String
  specialBreak : String
  hilightBreak : String

/-- Modelled from the spec: the source table `asciiByteToChar` lives in a
repository file that is not under `src/`.  Per §4.2 it maps printable byte
values to their character and every non-printable value to a fixed
substitute display character.  (`%c` renders any entry as exactly one
character, which is all the claims below depend on.) -/
def asciiByteToChar (b : Fin 256) : Char :=
  if 0x20 ≤ (b : Nat) ∧ (b : Nat) ≤ 0x7e then Char.ofNat b else '.'

/-- The writes of the present-byte `switch` of `Reader.Read`
(reader.go lines 187-216), for one byte value. -/
def presentToks (c : Colors) (f : ByteFormatter) (b : Fin 256) : List Tok :=
  match f with
  | .ViewHex => [.text (goSprintf0 16 2 b)]
  | .ViewDec => [.text (goSprintf0 10 3 b)]
  | .ViewOct => [.text (goSprintf0 8 3 b)]
  | .ViewBit => [.text (goSprintf0 2 8 b)]
  | .ViewASCII => [.text (String.singleton (asciiByteToChar b))]
  | .ViewHexWithASCII =>
    [.color (c.palette b), .text (goSprintf0 16 2 b ++ " "), .color c.specialBreak,
      .text "[", .color c.hilightBreak, .text (String.singleton (asciiByteToChar b)),
      .color c.specialBreak, .text "]"]
  | .ViewDecWithASCII =>
    [.color (c.palette b), .text (goSprintf0 10 3 b ++ " "), .color c.specialBreak,
      .text "[", .color c.hilightBreak, .text (String.singleton (asciiByteToChar b)),
      .color c.specialBreak, .text "]"]

/-- The writes of the absent-byte (padding) `switch` of `Reader.Read`
(reader.go lines 233-244).  The source switch has no `ViewBit` case, so
the bit formatter writes nothing for an absent byte. -/
def absentToks (f : ByteFormatter) : List Tok :=
  match f with
  | .ViewHex => [.text "‡‡"]
  | .ViewDec => [.text "‡‡‡"]
  | .ViewOct => [.text "‡‡‡"]
  | .ViewASCII => [.text "‡"]
  | .ViewHexWithASCII => [.text "‡‡‡‡‡‡"]
  | .ViewDecWithASCII => [.text "‡‡‡‡‡‡‡"]
  | .ViewBit => []

/-- `tmp[i]` of `Reader.Read`: the 16-byte buffer is allocated zero-filled
and the read overwrites its first `rb = bytes.length` entries. -/
def tmpAt (bytes : List (Fin 256)) (i : Nat) : Fin 256 :=
  bytes.getD i 0

/-- The writes of one iteration `i` of the column loop of `Reader.Read`
(reader.go lines 175-254) for formatter `f`, where `bytes` are the bytes
actually read (`rb = bytes.length`). -/
def positionToks (c : Colors) (f : ByteFormatter) (bytes : List (Fin 256)) (i : Nat) :
    List Tok :=
  (if i = 8 then [Tok.text " "] else []) ++
  (if i < bytes.length then
    (if i = 0 ∨ (0 < i ∧ tmpAt bytes i ≠ tmpAt bytes (i - 1)) then
      [Tok.color (c.palette (tmpAt bytes i))] else []) ++
    presentToks c f (tmpAt bytes i) ++
    (if i < 15 ∧ f ≠ ByteFormatter.ViewASCII then [Tok.text " "] else [])
  else
    (if i = 0 ∨ (0 < i ∧ tmpAt bytes i ≠ tmpAt bytes (i - 1)) then
      [Tok.color (c.palette 0)] else []) ++
    absentToks f ++
    (if i < 15 ∧ f ≠ ByteFormatter.ViewASCII then [Tok.text " "] else []))

/-- All 16 column iterations for one formatter. -/
def blockToks (c : Colors) (f : ByteFormatter) (bytes : List (Fin 256)) : List Tok :=
  ((List.range 16).map (positionToks c f bytes)).flatten

/-- The formatter loop of `Reader.Read`: blocks separated by the splitter
(written after every block except the last, reader.go lines 257-260). -/
def blocksToks (c : Colors) (spl : String) : List ByteFormatter → List (Fin 256) → List Tok
  | [], _ => []
  | [f], bytes => blockToks c f bytes
  | f :: f2 :: rest, bytes =>
    blockToks c f bytes ++ [Tok.color c.splitterBreak, Tok.text spl] ++
      blocksToks c spl (f2 :: rest) bytes

/-! ## Header rendering -/

/-- `Reader.header(l)` (reader.go lines 273-286): sixteen column labels
`0..f` at label width `l` (printf `%0*x`), an extra space before label 8,
and a separating space after each non-final label when `l > 1`. -/
def headerLabels (l : Nat) : String :=
  String.join ((List.range 16).map fun i =>
    (if i = 8 then " " else "") ++ goSprintf0 16 l i ++
      (if 1 < l ∧ i < 15 then " " else ""))

/-- The per-formatter `switch` of `Reader.Header` (reader.go lines
305-314).  There is no case for `ViewHexWithASCII` / `ViewDecWithASCII`:
those formatters contribute no labels at all. -/
def headerBlock : ByteFormatter → String
  | .ViewHex => headerLabels 2
  | .ViewASCII => headerLabels 1
  | .ViewDec => headerLabels 3
  | .ViewOct => headerLabels 3
  | .ViewBit => headerLabels 8
  | .ViewHexWithASCII => ""
  | .ViewDecWithASCII => ""

/-- The declared per-column visible width of each byte-formatter variant
(spec §4.2). -/
def declaredWidth : ByteFormatter → Nat
  | .ViewHex => 2
  | .ViewDec => 3
  | .ViewOct => 3
  | .ViewBit => 8
  | .ViewASCII => 1
  | .ViewHexWithASCII => 6
  | .ViewDecWithASCII => 7

/-! ## The stateful reader -/

/-- Errors surfaced by the byte source.  `eof` models `io.EOF`; the two
failure values model arbitrary seek / read faults. -/
inductive GoErr
  | eof
  | seekFail
  | readFail
deriving DecidableEq

/-- The byte source behind `iface.ReadSeekerCloser`, modelled as a byte
list plus a cursor.  The two error flags inject seek / read failures. -/
structure Source where
  data : List (Fin 256)
  pos : Nat
  seekErr : Bool
  readErr : Bool

/-- `r.r.Seek(0, io.SeekCurrent)`: reports the current position. -/
def srcSeek (s : Source) : Except GoErr Nat :=
  if s.seekErr then .error .seekFail else .ok s.pos

/-- `r.r.Read(tmp)` with `len(tmp) = 16`: returns up to 16 bytes from the
cursor and advances it; at end of stream it returns `io.EOF`. -/
def srcRead (s : Source) : Except GoErr (List (Fin 256) × Source) :=
  if s.readErr then .error .readFail
  else if s.data.length ≤ s.pos then .error .eof
  else
    let chunk := (s.data.drop s.pos).take 16
    .ok (chunk, { s with pos := s.pos + chunk.length })

/-- The persistent `Reader` state used by `Read` (`sb` is reset at the
start of every call and is not carried). -/
structure Reader where
  charFormatters : List ByteFormatter
  offsetFormatters : List OffsetFormatter
  fileSize : Nat
  ReadBytes : Nat
  colors : Colors
  Splitter : String

/-- `Reader.getoffsetLeft` (reader.go lines 124-135). -/
def getoffsetLeft (r : Reader) (offset : Nat) : List Tok :=
  match r.offsetFormatters with
  | [] => []
  | f :: _ =>
    [Tok.color r.colors.offsetBreak, Tok.text (formatOffset r.fileSize f offset),
      Tok.color r.colors.splitterBreak, Tok.text r.Splitter]

/-- `Reader.getoffsetRight` (reader.go lines 137-148). -/
def getoffsetRight (r : Reader) (offset : Nat) : List Tok :=
  match r.offsetFormatters with
  | _ :: f1 :: _ =>
    [Tok.color r.colors.splitterBreak, Tok.text r.Splitter,
      Tok.color r.colors.offsetBreak, Tok.text (formatOffset r.fileSize f1 offset)]
  | _ => []

/-- `Reader.Read` (reader.go lines 151-266): seek, render the offsets,
read up to 16 bytes, bump `ReadBytes` (a `uint64`, hence `% 2 ^ 64`),
render every formatter block, and return the assembled line.  Both error
returns happen before `ReadBytes` is updated. -/
def Reader.Read (r : Reader) (s : Source) :
    (String × Option GoErr) × Reader × Source :=
  match srcSeek s with
  | .error e => (("", some e), r, s)
  | .ok offset =>
    let offsetLeft := getoffsetLeft r offset
    let offsetRight := getoffsetRight r offset
    match srcRead s with
    | .error e => (("", some e), r, s)
    | .ok (bytes, s2) =>
      let rb := bytes.length
      let toks := offsetLeft ++ blocksToks r.colors r.Splitter r.charFormatters bytes ++
        offsetRight
      ((renderToks toks, none), { r with ReadBytes := (r.ReadBytes + rb) % 2 ^ 64 }, s2)

/-! ## Concrete fixtures for evaluations and witnesses -/

/-- A concrete palette / break-color assignment: palette entry `b` is the
string `P<b>`, the break colors are `S`, `O`, `K`, `H`. -/
def cEx : Colors where
  palette := fun b => "P" ++ String.mk (natDigits 10 b)
  splitterBreak := "S"
  offsetBreak := "O"
  specialBreak := "K"
  hilightBreak := "H"

/-- The record `[5, 5, 5, 9]` of spec §8. -/
def ex5559 : List (Fin 256) := [5, 5, 5, 9]

/-- A record with two equal consecutive bytes. -/
def ex55 : List (Fin 256) := [5, 5]

/-- A one-byte record (`rb = 1`). -/
def ex1 : List (Fin 256) := [1]

/-- A concrete reader configuration over `cEx`. -/
def rEx : Reader where
  charFormatters := [.ViewHex, .ViewASCII]
  offsetFormatters := [.OffsetHex]
  fileSize := 5
  ReadBytes := 0
  colors := cEx
  Splitter := "┊"

/-- A healthy 5-byte source. -/
def s5 : Source where
  data := [0, 1, 2, 3, 4]
  pos := 0
  seekErr := false
  readErr := false

/-- A source whose position query fails. -/
def sErr : Source where
  data := [3]
  pos := 0
  seekErr := true
  readErr := false

/-! ## Helper lemmas -/

set_option maxRecDepth 8192

theorem natDigitsCore_length (base : Nat) (hb : 1 < base) :
    ∀ fuel n acc, n ≤ fuel →
      (natDigitsCore base fuel n acc).length = Nat.log base n + 1 + acc.length := by
  intro fuel
  induction fuel with
  | zero =>
    intro n acc hn
    have hn0 : n = 0 := Nat.le_zero.mp hn
    subst hn0
    simp [natDigitsCore]
    omega
  | succ f ih =>
    intro n acc hn
    rw [natDigitsCore]
    by_cases h : n < base
    · simp [h, Nat.log_of_lt h]
      omega
    · rw [if_neg h, ih (n / base) _ (by
        have hlt := Nat.div_lt_self (show 0 < n by omega) hb
        exact Nat.lt_succ_iff.mp (lt_of_lt_of_le hlt hn))]
      rw [Nat.log_div_base]
      have hpos : 0 < Nat.log base n := Nat.log_pos hb (le_of_not_lt h)
      simp
      omega

theorem natDigits_length (base : Nat) (hb : 1 < base) (n : Nat) :
    (natDigits base n).length = Nat.log base n + 1 := by
  simpa [natDigits] using natDigitsCore_length base hb n n [] le_rfl

theorem goSprintfX_length (n : Nat) :
    (goSprintfX n).length = hexDigitsNeeded n := by
  simpa [goSprintfX, hexDigitsNeeded, String.length] using natDigits_length 16 (by omega) n

theorem goSprintf0_hex_len : ∀ b : Fin 256, (goSprintf0 16 2 b).length = 2 := by decide

theorem goSprintf0_dec_len : ∀ b : Fin 256, (goSprintf0 10 3 b).length = 3 := by decide

theorem goSprintf0_oct_len : ∀ b : Fin 256, (goSprintf0 8 3 b).length = 3 := by decide

theorem goSprintf0_bit_len : ∀ b : Fin 256, (goSprintf0 2 8 b).length = 8 := by decide

theorem singleton_length (ch : Char) : (String.singleton ch).length = 1 := rfl

theorem countP_isColor_textIf (p : Prop) [Decidable p] (s : String) :
    List.countP Tok.isColor (if p then [Tok.text s] else []) = 0 := by
  split <;> simp [Tok.isColor]

theorem filter_isColor_textIf (p : Prop) [Decidable p] (s : String) :
    List.filter Tok.isColor (if p then [Tok.text s] else []) = [] := by
  split <;> simp [Tok.isColor]

theorem countP_isColor_colorIf (p : Prop) [Decidable p] (s : String) :
    List.countP Tok.isColor (if p then [Tok.color s] else []) = if p then 1 else 0 := by
  split <;> simp [Tok.isColor]

theorem filter_isColor_colorIf (p : Prop) [Decidable p] (s : String) :
    List.filter Tok.isColor (if p then [Tok.color s] else []) =
      if p then [Tok.color s] else [] := by
  split <;> simp [Tok.isColor]

/-! ## Claim theorems -/

/-- C1 (code-bug evidence): with `totalSize = 0` the percent branch of
`formatOffset` performs the division unguarded: the float result is `NaN`
for offset 0 and `+Inf` for any positive offset, and the printed text is
never the claimed fixed value `000.000%`. -/
theorem C1_percent_unguarded_division (offset : Nat) :
    formatOffset 0 .OffsetPercent offset =
      (if offset = 0 then "    NaN%" else "   +Inf%") ∧
    formatOffset 0 .OffsetPercent offset ≠ "000.000%" := by
  have hmain : formatOffset 0 .OffsetPercent offset =
      (if offset = 0 then "    NaN%" else "   +Inf%") := by
    by_cases h : offset = 0
    · subst h
      simp [formatOffset, GoFloat.div, goFormatF73]
    · have h0 : (0 : ℚ) < (offset : ℚ) := by exact_mod_cast Nat.pos_of_ne_zero h
      have hpos : (0 : ℚ) < (offset : ℚ) * 100 := by nlinarith
      simp [formatOffset, GoFloat.div, hpos, hpos.ne', goFormatF73, h]
  refine ⟨hmain, ?_⟩
  rw [hmain]
  split <;> decide

/-- C2 counterexample: for the one-byte record `[1]`, the color marker
emitted at the first absent position (column 1) is exactly the palette
color assigned to byte value 0 — not a color distinct from it. -/
theorem C2_absent_marker_counterexample :
    (positionToks cEx .ViewHex ex1 1).filter Tok.isColor = [Tok.color (cEx.palette 0)] ∧
    cEx.palette 0 = "P0" := by decide

/-- C2 (amended): before an absent-byte placeholder the code emits the
palette color of byte value 0 (`r.colors.palette[0]`), and only at the
first column or when the zero-filled buffer value changes; there is no
dedicated fallback color. -/
theorem C2_absent_marker_is_palette_zero (c : Colors) (f : ByteFormatter)
    (bytes : List (Fin 256)) (i : Nat) (h : bytes.length ≤ i) :
    (positionToks c f bytes i).filter Tok.isColor =
      if i = 0 ∨ (0 < i ∧ tmpAt bytes i ≠ tmpAt bytes (i - 1)) then
        [Tok.color (c.palette 0)] else [] := by
  have hlt : ¬ i < bytes.length := by omega
  have habs : List.filter Tok.isColor (absentToks f) = [] := by
    cases f <;> simp [absentToks, Tok.isColor]
  rw [positionToks, if_neg hlt]
  simp only [List.filter_append, filter_isColor_textIf, filter_isColor_colorIf, habs,
    List.append_nil, List.nil_append]

/-- C2 witness: the amended statement at the concrete record `[1]`,
formatter dec, column 1. -/
theorem C2_absent_marker_is_palette_zero_witness :
    ex1.length ≤ 1 ∧
    (positionToks cEx .ViewDec ex1 1).filter Tok.isColor =
      (if 1 = 0 ∨ (0 < 1 ∧ tmpAt ex1 1 ≠ tmpAt ex1 0) then
        [Tok.color (cEx.palette 0)] else []) :=
  ⟨by decide, C2_absent_marker_is_palette_zero cEx .ViewDec ex1 1 (by decide)⟩

/-- C3 counterexample: the header switch renders no labels at all for the
hex-with-ascii and dec-with-ascii formatters (empty header block), while
their data columns are 6 resp. 7 wide; a handled formatter such as hex
gets a 48-character label row. -/
theorem C3_withAscii_header_missing :
    headerBlock ByteFormatter.ViewHexWithASCII = "" ∧
    headerBlock ByteFormatter.ViewDecWithASCII = "" ∧
    declaredWidth ByteFormatter.ViewHexWithASCII = 6 ∧
    declaredWidth ByteFormatter.ViewDecWithASCII = 7 ∧
    (headerBlock ByteFormatter.ViewHex).length = 48 := by decide

/-- C3 (amended): for the five plain formatters — hex, dec, oct, bit,
ascii — the header block is the label row at exactly that formatter's
data-column width, and each label has that width; the two with-ascii
formatters render no header labels. -/
theorem C3_header_width_matches_basic (f : ByteFormatter)
    (h : f = .ViewHex ∨ f = .ViewDec ∨ f = .ViewOct ∨ f = .ViewBit ∨ f = .ViewASCII) :
    headerBlock f = headerLabels (declaredWidth f) ∧
    ∀ i : Fin 16, (goSprintf0 16 (declaredWidth f) i).length = declaredWidth f := by
  rcases h with h | h | h | h | h <;> subst h <;> exact ⟨rfl, by decide⟩

/-- C3 witness: the amended statement at the bit formatter. -/
theorem C3_header_width_matches_basic_witness :
    ((.ViewBit : ByteFormatter) = .ViewHex ∨ (.ViewBit : ByteFormatter) = .ViewDec ∨
      (.ViewBit : ByteFormatter) = .ViewOct ∨ (.ViewBit : ByteFormatter) = .ViewBit ∨
      (.ViewBit : ByteFormatter) = .ViewASCII) ∧
    headerBlock .ViewBit = headerLabels (declaredWidth .ViewBit) ∧
    ∀ i : Fin 16, (goSprintf0 16 (declaredWidth .ViewBit) i).length = declaredWidth .ViewBit :=
  ⟨by decide, (C3_header_width_matches_basic .ViewBit (by decide)).1,
    (C3_header_width_matches_basic .ViewBit (by decide)).2⟩

/-- C4: in the hex rendering of a record, a color marker is emitted at a
present column iff it is the first column or its byte value differs from
the previous column's byte value. -/
theorem C4_hex_marker_iff (c : Colors) (bytes : List (Fin 256)) (i : Nat)
    (hi : i < bytes.length) :
    (positionToks c .ViewHex bytes i).countP Tok.isColor =
      if i = 0 ∨ bytes.getD i 0 ≠ bytes.getD (i - 1) 0 then 1 else 0 := by
  have hcond : (i = 0 ∨ (0 < i ∧ tmpAt bytes i ≠ tmpAt bytes (i - 1))) ↔
      (i = 0 ∨ bytes.getD i 0 ≠ bytes.getD (i - 1) 0) := by
    rcases Nat.eq_zero_or_pos i with h0 | h0
    · simp [h0]
    · simp [tmpAt, h0, Nat.pos_iff_ne_zero.mp h0]
  rw [positionToks, if_pos hi]
  simp only [List.countP_append, countP_isColor_textIf, countP_isColor_colorIf]
  simp [presentToks, Tok.isColor, hcond]

/-- C4 witness: record `[5, 5, 5, 9]`: the marker is emitted before
columns 0 and 3 and suppressed before columns 1 and 2. -/
theorem C4_hex_marker_iff_witness :
    (0 < ex5559.length ∧ 1 < ex5559.length ∧ 2 < ex5559.length ∧ 3 < ex5559.length) ∧
    (positionToks cEx .ViewHex ex5559 0).countP Tok.isColor = 1 ∧
    (positionToks cEx .ViewHex ex5559 1).countP Tok.isColor = 0 ∧
    (positionToks cEx .ViewHex ex5559 2).countP Tok.isColor = 0 ∧
    (positionToks cEx .ViewHex ex5559 3).countP Tok.isColor = 1 :=
  ⟨by decide,
   (C4_hex_marker_iff cEx ex5559 0 (by decide)).trans (by decide),
   (C4_hex_marker_iff cEx ex5559 1 (by decide)).trans (by decide),
   (C4_hex_marker_iff cEx ex5559 2 (by decide)).trans (by decide),
   (C4_hex_marker_iff cEx ex5559 3 (by decide)).trans (by decide)⟩

/-- C5: for every palette, byte value and byte-formatter variant, the
present-byte rendering (color markers excluded) has exactly the variant's
declared visible width: hex 2, dec 3, oct 3, bit 8, ascii 1,
hex-with-ascii 6, dec-with-ascii 7. -/
theorem C5_presentWidth_eq_declared (c : Colors) (f : ByteFormatter) (b : Fin 256) :
    visibleWidth (presentToks c f b) = declaredWidth f := by
  cases f <;>
    simp [presentToks, visibleWidth, declaredWidth, Tok.visLen, String.length_append,
      goSprintf0_hex_len b, goSprintf0_dec_len b, goSprintf0_oct_len b,
      goSprintf0_bit_len b, singleton_length,
      show (" " : String).length = 1 from rfl,
      show ("[" : String).length = 1 from rfl, show ("]" : String).length = 1 from rfl]

/-- C6 (code-bug evidence): the absent-byte switch of `Reader.Read` has no
`ViewBit` case, so the bit formatter's absent-byte placeholder is empty
(visible width 0) while its present-byte rendering is 8 wide; every other
formatter's placeholder does match its present width. -/
theorem C6_bit_placeholder_missing :
    absentToks ByteFormatter.ViewBit = [] ∧
    visibleWidth (absentToks ByteFormatter.ViewBit) = 0 ∧
    visibleWidth (presentToks cEx ByteFormatter.ViewBit (0 : Fin 256)) = 8 ∧
    visibleWidth (absentToks ByteFormatter.ViewHex) = 2 ∧
    visibleWidth (absentToks ByteFormatter.ViewDec) = 3 ∧
    visibleWidth (absentToks ByteFormatter.ViewOct) = 3 ∧
    visibleWidth (absentToks ByteFormatter.ViewASCII) = 1 ∧
    visibleWidth (absentToks ByteFormatter.ViewHexWithASCII) = 6 ∧
    visibleWidth (absentToks ByteFormatter.ViewDecWithASCII) = 7 := by
  decide

/-- C7: for every total stream size, the widths derived at construction
for the hex, dec and oct offset formatters all equal the number of
hexadecimal digits needed to represent the total size (dec and oct reuse
the hex digit count). -/
theorem C7_offsetWidths_eq_hexDigits (size : Nat) :
    offsetFormatterWidth size .OffsetHex = hexDigitsNeeded size ∧
    offsetFormatterWidth size .OffsetDec = hexDigitsNeeded size ∧
    offsetFormatterWidth size .OffsetOct = hexDigitsNeeded size := by
  refine ⟨?_, ?_, ?_⟩ <;> simpa [offsetFormatterWidth] using goSprintfX_length size

/-- C8: a successful `Read` that obtains `rb` bytes from the source
increases `ReadBytes` by exactly `rb = min 16 (remaining bytes)`. -/
theorem C8_read_updates_ReadBytes (r : Reader) (s : Source)
    (hseek : s.seekErr = false) (hread : s.readErr = false)
    (hpos : s.pos < s.data.length)
    (hov : r.ReadBytes + min 16 (s.data.length - s.pos) < 2 ^ 64) :
    ((r.Read s).2.1).ReadBytes = r.ReadBytes + min 16 (s.data.length - s.pos) := by
  have hlen : ((s.data.drop s.pos).take 16).length = min 16 (s.data.length - s.pos) := by
    simp [List.length_take, List.length_drop]
  unfold Reader.Read srcSeek srcRead
  simp [hseek, hread, Nat.not_le.mpr hpos, hlen]
  simpa using hov

/-- C8 witness: one call on a fresh 5-byte source leaves `ReadBytes = 5`. -/
theorem C8_read_updates_ReadBytes_witness :
    (s5.seekErr = false ∧ s5.readErr = false ∧ s5.pos < s5.data.length ∧
      rEx.ReadBytes + min 16 (s5.data.length - s5.pos) < 2 ^ 64) ∧
    ((rEx.Read s5).2.1).ReadBytes = rEx.ReadBytes + min 16 (s5.data.length - s5.pos) ∧
    rEx.ReadBytes + min 16 (s5.data.length - s5.pos) = 5 :=
  ⟨⟨rfl, rfl, by decide, by decide⟩,
    C8_read_updates_ReadBytes rEx s5 rfl rfl (by decide) (by decide), by decide⟩

/-- C9: if the position query or the byte read fails, `Read` returns the
empty string together with that error and leaves the reader (in
particular `ReadBytes`) and the source unchanged. -/
theorem C9_read_error_keeps_state (r : Reader) (s : Source)
    (h : s.seekErr = true ∨ s.readErr = true) :
    (r.Read s).1.1 = "" ∧
    (r.Read s).1.2 = some (if s.seekErr = true then GoErr.seekFail else GoErr.readFail) ∧
    (r.Read s).2.1 = r ∧ (r.Read s).2.2 = s := by
  by_cases hs : s.seekErr = true
  · unfold Reader.Read srcSeek
    simp [hs]
  · have hr : s.readErr = true := h.resolve_left hs
    simp only [Bool.not_eq_true] at hs
    unfold Reader.Read srcSeek srcRead
    simp [hs, hr]

/-- C9 witness: a failing seek on a concrete reader and source. -/
theorem C9_read_error_keeps_state_witness :
    (sErr.seekErr = true ∨ sErr.readErr = true) ∧
    ((rEx.Read sErr).1.1 = "" ∧
      (rEx.Read sErr).1.2 =
        some (if sErr.seekErr = true then GoErr.seekFail else GoErr.readFail) ∧
      (rEx.Read sErr).2.1 = rEx ∧ (rEx.Read sErr).2.2 = sErr) :=
  ⟨Or.inl rfl, C9_read_error_keeps_state rEx sErr (Or.inl rfl)⟩

/-- C10: for the hex-with-ascii and dec-with-ascii formatters, a palette
color marker for the byte's value is written before every present byte's
text, independently of the run-length suppression of the shared
change-detection marker. -/
theorem C10_withAscii_palette_every_present_byte (c : Colors) (f : ByteFormatter)
    (hf : f = .ViewHexWithASCII ∨ f = .ViewDecWithASCII)
    (bytes : List (Fin 256)) (i : Nat) (hi : i < bytes.length) :
    Tok.color (c.palette (tmpAt bytes i)) ∈ positionToks c f bytes i := by
  have hpres : Tok.color (c.palette (tmpAt bytes i)) ∈ presentToks c f (tmpAt bytes i) := by
    rcases hf with hf | hf <;> subst hf <;> simp [presentToks]
  rw [positionToks, if_pos hi]
  exact List.mem_append_right _ (List.mem_append_left _ (List.mem_append_right _ hpres))

/-- C10 witness: record `[5, 5]`, column 1 — the run-length check
suppresses the shared marker there (plain hex emits no color), yet the
hex-with-ascii rendering still carries the palette marker for value 5. -/
theorem C10_withAscii_palette_witness :
    ((.ViewHexWithASCII : ByteFormatter) = .ViewHexWithASCII ∨
      (.ViewHexWithASCII : ByteFormatter) = .ViewDecWithASCII) ∧
    1 < ex55.length ∧
    Tok.color (cEx.palette (tmpAt ex55 1)) ∈ positionToks cEx .ViewHexWithASCII ex55 1 ∧
    (positionToks cEx .ViewHex ex55 1).countP Tok.isColor = 0 :=
  ⟨Or.inl rfl, by decide,
    C10_withAscii_palette_every_present_byte cEx .ViewHexWithASCII (Or.inl rfl) ex55 1 (by decide),
    by decide⟩

end Heksa
